import Mathlib

/-!
Verification of the midi2key event-mapping and device-control engine.

The Rust sources under `src/` are shallowly embedded here:

* `src/katana.rs` — checksum, sysex payload framing, preset-select commands
  and the edit-mode lifecycle of `KatanaControl`;
* `src/main.rs` — the `Event` string parser, the mapping-table builder
  `get_mappings`, and the dispatcher `Handler::handle`;
* `src/handler.rs` — `emit_keyboard_events` (the same key-batch construction
  as the inline code of `main.rs`).

Machine integers (`u8`) are embedded as `Nat` with wrap-around written out as
`% 256` and bit masking kept as `&&& 0x7f`, exactly where the source applies
them.  Fallible Rust functions (`Result`) become `Except`; transport sends are
modelled by an explicit success oracle and an explicit trace of attempts.
-/

namespace Midi2Key

/-- Small arithmetic fact used throughout: masking with `0x7f` is reduction
modulo `128` (instance of `Nat.and_pow_two_sub_one_eq_mod` at `n = 7`). -/
theorem and127 (x : Nat) : x &&& 127 = x % 128 :=
  Nat.and_pow_two_sub_one_eq_mod x 7

/-! ## src/katana.rs — constants -/

/-- Embeds `SYSEX_WRITE_PREFIX: [u8; 6]` of src/katana.rs (the fixed bytes
put in front of every command payload). -/
def SYSEX_WRITE_HEADER : List Nat := [0x00, 0x00, 0x00, 0x00, 0x33, 0x12]

/-- Embeds `EDIT_MODE_ON: [u8; 5]` of src/katana.rs. -/
def EDIT_MODE_ON : List Nat := [0x7F, 0x00, 0x00, 0x01, 0x01]

/-- Embeds `EDIT_MODE_OFF: [u8; 5]` of src/katana.rs. -/
def EDIT_MODE_OFF : List Nat := [0x7F, 0x00, 0x00, 0x01, 0x00]

/-- Embeds `PRESET_ADDR: [u8; 4]` of src/katana.rs. -/
def PRESET_ADDR : List Nat := [0x00, 0x01, 0x00, 0x00]

/-- Embeds `ROLAND_MANUFACTURER_ID: ManufacturerID = ManufacturerID(0x41, None)`
of src/katana.rs (manufacturer byte `0x41`, no extension byte). -/
def ROLAND_MANUFACTURER_ID : Nat × Option Nat := (0x41, none)

/-! ## src/katana.rs — checksum and payload framing -/

/-- Embeds `calculate_checksum` of src/katana.rs:

    let acc = data.iter().fold(0u8, |sum, &byte| (sum + byte) & 0x7f);
    (0x80 - acc) & 0x7f

The `u8` addition `sum + byte` wraps modulo 256 (written `% 256` here); the
running value is then masked to 7 bits, so `acc ≤ 0x7f` and the `u8`
subtraction `0x80 - acc` never underflows, which makes it coincide with `Nat`
subtraction. -/
def calculate_checksum (data : List Nat) : Nat :=
  (0x80 - data.foldl (fun sum byte => ((sum + byte) % 256) &&& 0x7f) 0) &&& 0x7f

/-- Embeds `create_sysex_payload` of src/katana.rs: the write-command header,
followed by the command bytes, followed by the checksum of the command bytes
(the header is not included in the checksum). -/
def create_sysex_payload (data : List Nat) : List Nat :=
  SYSEX_WRITE_HEADER ++ data ++ [calculate_checksum data]

/-- Model of the `midi_msg` crate's `SystemExclusiveMsg::Commercial` value as
built by src/katana.rs: a manufacturer id and the enclosed data bytes. -/
structure SysExMsg where
  id : Nat × Option Nat
  data : List Nat
deriving DecidableEq, Repr

/-- Embeds `create_sysex_message` of src/katana.rs. -/
def create_sysex_message (data : List Nat) : SysExMsg :=
  SysExMsg.mk ROLAND_MANUFACTURER_ID (create_sysex_payload data)

/-! ## src/katana.rs — presets -/

/-- Embeds `enum Preset` of src/katana.rs. -/
inductive Preset where
  | Panel
  | A1
  | A2
  | A3
  | A4
  | B1
  | B2
  | B3
  | B4
deriving DecidableEq, Repr

/-- Embeds `impl From<Preset> for u8` of src/katana.rs. -/
def Preset.toU8 : Preset → Nat
  | .Panel => 0
  | .A1 => 1
  | .A2 => 2
  | .A3 => 3
  | .A4 => 4
  | .B1 => 5
  | .B2 => 6
  | .B3 => 7
  | .B4 => 8

/-- Embeds the message construction of `KatanaControl::change_preset` of
src/katana.rs: payload = `PRESET_ADDR ++ [0x00, preset.into()]`, wrapped by
`create_sysex_message`. -/
def change_preset_msg (preset : Preset) : SysExMsg :=
  create_sysex_message (PRESET_ADDR ++ [0x00, Preset.toU8 preset])

/-! ## Checksum arithmetic -/

/-- The masked running sum of `calculate_checksum` computes the byte sum
modulo 128, for any start value written as `s % 128`. -/
theorem checksum_fold_eq_mod (data : List Nat) :
    ∀ s : Nat,
      data.foldl (fun sum byte => ((sum + byte) % 256) &&& 0x7f) (s % 128)
        = (s + data.sum) % 128 := by
  induction data with
  | nil => intro s; simp
  | cons x xs ih =>
    intro s
    simp only [List.foldl_cons, List.sum_cons]
    have h1 : ((s % 128 + x) % 256) &&& 0x7f = (s + x) % 128 := by
      rw [and127]; omega
    rw [h1, ih (s + x)]
    omega

/-- The accumulator of `calculate_checksum` is the byte sum modulo 128. -/
theorem checksum_acc_eq (data : List Nat) :
    data.foldl (fun sum byte => ((sum + byte) % 256) &&& 0x7f) 0
      = data.sum % 128 := by
  have h := checksum_fold_eq_mod data 0
  simpa using h

/-- C1: for every list of command bytes `b` (each a `u8`, i.e. below 256),
the checksum `c = calculate_checksum b` makes the total sum divisible by 128:
`(sum b + c) % 128 = 0`; equivalently `c = (0x80 - sum b % 0x80) % 0x80`. -/
theorem calculate_checksum_neutralizes_sum (b : List Nat)
    (hb : ∀ x ∈ b, x < 256) :
    (b.sum + calculate_checksum b) % 128 = 0 ∧
    calculate_checksum b = (0x80 - b.sum % 0x80) % 0x80 := by
  have hacc := checksum_acc_eq b
  unfold calculate_checksum
  rw [hacc, and127]
  constructor
  · omega
  · norm_num

/-- Witness for C1 at the concrete byte list `[0x33, 0x12, 0x7f]`. -/
theorem calculate_checksum_neutralizes_sum_witness :
    (([0x33, 0x12, 0x7f] : List Nat).sum
        + calculate_checksum [0x33, 0x12, 0x7f]) % 128 = 0 ∧
    calculate_checksum [0x33, 0x12, 0x7f]
      = (0x80 - ([0x33, 0x12, 0x7f] : List Nat).sum % 0x80) % 0x80 :=
  calculate_checksum_neutralizes_sum [0x33, 0x12, 0x7f] (by decide)

/-- C10: for every input byte list whatsoever, the checksum is a 7-bit value
(the final `&&& 0x7f` mask guarantees it unconditionally), and when every
command byte is 7-bit the whole payload built by `create_sysex_payload` —
header bytes, command bytes and the appended checksum — consists of 7-bit
data bytes. -/
theorem create_sysex_payload_seven_bit (data : List Nat) :
    calculate_checksum data < 128 ∧
    ((∀ x ∈ data, x < 128) → ∀ y ∈ create_sysex_payload data, y < 128) := by
  have hc : calculate_checksum data < 128 := by
    unfold calculate_checksum
    rw [and127]
    omega
  refine ⟨hc, ?_⟩
  intro hd y hy
  unfold create_sysex_payload SYSEX_WRITE_HEADER at hy
  simp only [List.mem_append, List.mem_cons, List.not_mem_nil, or_false] at hy
  rcases hy with (h | h) | h
  · rcases h with h | h | h | h | h | h <;> omega
  · exact hd y h
  · omega

/-- Witness for C10 at the concrete command bytes `[0x00, 0x01, 0xff]`
(note `0xff` is not 7-bit: the checksum bound needs no such assumption). -/
theorem create_sysex_payload_seven_bit_witness :
    calculate_checksum [0x00, 0x01, 0xff] < 128 ∧
    ((∀ x ∈ ([0x00, 0x01, 0xff] : List Nat), x < 128) →
      ∀ y ∈ create_sysex_payload [0x00, 0x01, 0xff], y < 128) :=
  create_sysex_payload_seven_bit [0x00, 0x01, 0xff]

/-- C2: `change_preset` for preset A1 sends a sysex message whose data payload
is exactly the six header bytes, the command bytes `[0x00,0x01,0x00,0x00,0x00,0x01]`
and the checksum computed over those six command bytes only; in general the
preset-select command bytes are `[0x00,0x01,0x00,0x00,0x00,code]` with `code`
the preset's numeric value (Panel = 0, A1..A4 = 1..4, B1..B4 = 5..8). -/
theorem change_preset_payload_bytes :
    (change_preset_msg Preset.A1).data
      = [0x00, 0x00, 0x00, 0x00, 0x33, 0x12,
         0x00, 0x01, 0x00, 0x00, 0x00, 0x01,
         calculate_checksum [0x00, 0x01, 0x00, 0x00, 0x00, 0x01]] ∧
    (∀ p : Preset, (change_preset_msg p).data
        = SYSEX_WRITE_HEADER
            ++ [0x00, 0x01, 0x00, 0x00, 0x00, Preset.toU8 p]
            ++ [calculate_checksum [0x00, 0x01, 0x00, 0x00, 0x00, Preset.toU8 p]]) ∧
    Preset.toU8 .Panel = 0 ∧ Preset.toU8 .A1 = 1 ∧ Preset.toU8 .A2 = 2 ∧
    Preset.toU8 .A3 = 3 ∧ Preset.toU8 .A4 = 4 ∧ Preset.toU8 .B1 = 5 ∧
    Preset.toU8 .B2 = 6 ∧ Preset.toU8 .B3 = 7 ∧ Preset.toU8 .B4 = 8 := by
  refine ⟨rfl, ?_, rfl, rfl, rfl, rfl, rfl, rfl, rfl, rfl, rfl⟩
  intro p
  cases p <;> rfl

/-! ## src/main.rs — Event and its string parser -/

/-- Embeds `enum Event` of src/main.rs. -/
inductive Event where
  | PC (v : Nat)
  | CC (v : Nat)
deriving DecidableEq, Repr

/-- Model of Rust's `str::split_once(' ')` over the character list of the
string: splits at the first space, which is kept in neither part; `none` when
the string has no space. -/
def splitOnceSpace : List Char → Option (List Char × List Char)
  | [] => none
  | c :: rest =>
    if c = ' ' then some ([], rest)
    else (splitOnceSpace rest).map (fun p => (c :: p.1, p.2))

/-- Drops one leading `'+'` sign if present (Rust's integer parser accepts an
optional leading `+` before the digits of an unsigned integer). -/
def stripPlus : List Char → List Char
  | '+' :: rest => rest
  | s => s

/-- Decimal value of a digit list, most significant digit first. -/
def decValue (s : List Char) : Nat :=
  s.foldl (fun acc c => acc * 10 + (c.toNat - 48)) 0

/-- Model of Rust's `"…".parse::<u8>()` (core's `FromStr for u8`): an optional
leading `+`, then one or more ASCII digits, value at most 255; anything else
(including a leading `-`, which is rejected for unsigned integers) is an
error, modelled as `none`.  Rust reports the overflow at the first
intermediate value above `u8::MAX`, but since the running value only grows,
that is equivalent to checking the final value. -/
def parseU8 (s : List Char) : Option Nat :=
  if stripPlus s ≠ [] ∧ (stripPlus s).all Char.isDigit ∧ decValue (stripPlus s) ≤ 255
  then some (decValue (stripPlus s))
  else none

/-- Embeds `impl TryFrom<&str> for Event` of src/main.rs: split at the first
space, parse the part after the space as a `u8`, then match the part before
it against `"PC"` / `"CC"`.  A Rust `&str` is modelled as its character
list. -/
def Event.tryFrom (s : List Char) : Except String Event :=
  match splitOnceSpace s with
  | none => .error "Invalid event"
  | some (t, v) =>
    match parseU8 v with
    | none => .error "invalid digit"
    | some val =>
      if t = ['P', 'C'] then .ok (.PC val)
      else if t = ['C', 'C'] then .ok (.CC val)
      else .error "Invalid event type"

/-- Successful `parseU8` values fit in a `u8`. -/
theorem parseU8_le_255 (vs : List Char) (v : Nat) (h : parseU8 vs = some v) :
    v ≤ 255 := by
  unfold parseU8 at h
  split at h
  · rename_i hcond
    injection h with h
    omega
  · cases h

/-- A successful split means the input was the left part, a space, then the
right part. -/
theorem splitOnceSpace_shape :
    ∀ l a b : List Char, splitOnceSpace l = some (a, b) → l = a ++ ' ' :: b := by
  intro l
  induction l with
  | nil => intro a b h; cases h
  | cons c rest ih =>
    intro a b h
    unfold splitOnceSpace at h
    by_cases hc : c = ' '
    · rw [if_pos hc] at h
      injection h with h
      cases h
      simp [hc]
    · rw [if_neg hc] at h
      cases hsp : splitOnceSpace rest with
      | none => rw [hsp] at h; cases h
      | some p =>
        obtain ⟨a2, b2⟩ := p
        rw [hsp] at h
        simp only [Option.map_some', Option.some.injEq, Prod.mk.injEq] at h
        obtain ⟨h1, h2⟩ := h
        subst h1
        subst h2
        have hrest := ih a2 b2 hsp
        simp [hrest]

/-- Splitting a string of the form `XY <rest>` (no space in `XY`). -/
theorem splitOnceSpace_two (c1 c2 : Char) (h1 : c1 ≠ ' ') (h2 : c2 ≠ ' ')
    (vs : List Char) :
    splitOnceSpace (c1 :: c2 :: ' ' :: vs) = some ([c1, c2], vs) := by
  unfold splitOnceSpace
  rw [if_neg h1]
  unfold splitOnceSpace
  rw [if_neg h2]
  rfl

/-- Evaluation of the event parser on a `PC`-shaped string. -/
theorem event_tryFrom_PC (vs : List Char) (v : Nat) (h : parseU8 vs = some v) :
    Event.tryFrom ('P' :: 'C' :: ' ' :: vs) = .ok (.PC v) := by
  simp [Event.tryFrom, splitOnceSpace_two 'P' 'C' (by decide) (by decide) vs, h]

/-- Evaluation of the event parser on a `CC`-shaped string. -/
theorem event_tryFrom_CC (vs : List Char) (v : Nat) (h : parseU8 vs = some v) :
    Event.tryFrom ('C' :: 'C' :: ' ' :: vs) = .ok (.CC v) := by
  simp [Event.tryFrom, splitOnceSpace_two 'C' 'C' (by decide) (by decide) vs, h]

/-- C3 counterexample: the event string `"PC 200"` parses successfully to
`ProgramChange 200` — the code performs no 7-bit range check, `u8` parsing
accepts any value up to 255 — whereas the claim says it fails with an
invalid-event error. -/
theorem event_tryFrom_PC200_ok :
    Event.tryFrom ['P', 'C', ' ', '2', '0', '0'] = .ok (.PC 200) := by
  rfl

/-- C3 (amended): `"CC 64"` parses to `ControlChange 64`; parsing succeeds
exactly when the string has the form `PC <v>` or `CC <v>` with `v` accepted
by Rust's unsigned 8-bit parser (optional `+`, decimal digits, value at most
255).  Values 128–255 are accepted, e.g. `"PC 200"` parses to
`ProgramChange 200`. -/
theorem event_tryFrom_characterization :
    Event.tryFrom ['C', 'C', ' ', '6', '4'] = .ok (.CC 64)
    ∧ Event.tryFrom ['P', 'C', ' ', '2', '0', '0'] = .ok (.PC 200)
    ∧ (∀ s : List Char,
        (∃ e, Event.tryFrom s = .ok e)
          ↔ ∃ vs v, parseU8 vs = some v ∧
              (s = 'P' :: 'C' :: ' ' :: vs ∨ s = 'C' :: 'C' :: ' ' :: vs))
    ∧ (∀ vs v, parseU8 vs = some v → v ≤ 255) := by
  refine ⟨rfl, rfl, ?_, parseU8_le_255⟩
  intro s
  constructor
  · rintro ⟨e, he⟩
    unfold Event.tryFrom at he
    cases hsp : splitOnceSpace s with
    | none => rw [hsp] at he; cases he
    | some tv =>
      obtain ⟨t, v⟩ := tv
      rw [hsp] at he
      cases hpv : parseU8 v with
      | none => simp only [hpv] at he; cases he
      | some val =>
        simp only [hpv] at he
        have hs := splitOnceSpace_shape s t v hsp
        by_cases h1 : t = ['P', 'C']
        · exact ⟨v, val, hpv, Or.inl (by rw [hs, h1]; rfl)⟩
        · by_cases h2 : t = ['C', 'C']
          · exact ⟨v, val, hpv, Or.inr (by rw [hs, h2]; rfl)⟩
          · rw [if_neg h1, if_neg h2] at he; cases he
  · rintro ⟨vs, v, hpv, hs | hs⟩
    · exact ⟨.PC v, by rw [hs]; exact event_tryFrom_PC vs v hpv⟩
    · exact ⟨.CC v, by rw [hs]; exact event_tryFrom_CC vs v hpv⟩

/-! ## Key emission (src/handler.rs `emit_keyboard_events`, and the identical
inline code of `Handler::handle` in src/main.rs) -/

/-- Model of an evdev `InputEvent` as built by `KeyEvent::new(key, value)`:
`value` 1 is a press, 0 a release.  Key codes are abstract numeric
identifiers. -/
structure InputEvent where
  key : Nat
  value : Nat
deriving DecidableEq, Repr

/-- Embeds the batch construction of `emit_keyboard_events` (src/handler.rs)
and of `Handler::handle` (src/main.rs): press events for the keys in listed
order, then release events pushed while walking the list in reverse. -/
def keyboard_events (keys : List Nat) : List InputEvent :=
  keys.map (fun k => InputEvent.mk k 1)
    ++ keys.reverse.map (fun k => InputEvent.mk k 0)

/-- Embeds `emit_keyboard_events` of src/handler.rs as the list of `emit`
calls it performs on the virtual-keyboard device: exactly one call, whose
argument is the whole press/release batch. -/
def emit_keyboard_events (keys : List Nat) : List (List InputEvent) :=
  [keyboard_events keys]

/-- C4: for every key list, key emission performs exactly one `emit` call
(one batch); the batch is the presses in listed order followed by the
releases in exactly reversed order; the empty key list yields the empty
batch. -/
theorem emit_keyboard_events_single_batch (keys : List Nat) :
    emit_keyboard_events keys
      = [keys.map (fun k => InputEvent.mk k 1)
          ++ (keys.map (fun k => InputEvent.mk k 0)).reverse]
    ∧ (keys = [] → emit_keyboard_events keys = [[]]) := by
  constructor
  · simp [emit_keyboard_events, keyboard_events]
  · rintro rfl; rfl

/-! ## Mapping-table construction (src/main.rs `get_mappings`) -/

/-- Embeds `enum KatanaAction` of src/main.rs. -/
inductive KatanaAction where
  | PresetPanel
  | PresetA1
  | PresetA2
  | PresetA3
  | PresetA4
  | PresetB1
  | PresetB2
  | PresetB3
  | PresetB4
deriving DecidableEq, Repr

/-- Embeds `impl TryFrom<&str> for KatanaAction` of src/main.rs. -/
def KatanaAction.tryFrom : String → Except String KatanaAction
  | "PRESET_PANEL" => .ok .PresetPanel
  | "PRESET_A1" => .ok .PresetA1
  | "PRESET_A2" => .ok .PresetA2
  | "PRESET_A3" => .ok .PresetA3
  | "PRESET_A4" => .ok .PresetA4
  | "PRESET_B1" => .ok .PresetB1
  | "PRESET_B2" => .ok .PresetB2
  | "PRESET_B3" => .ok .PresetB3
  | "PRESET_B4" => .ok .PresetB4
  | _ => .error "Invalid action"

/-- Embeds `struct MidiKeyMapping` of src/main.rs (one configuration
descriptor).  The event string is kept as a character list, matching
`Event.tryFrom`. -/
structure MidiKeyMapping where
  event : List Char
  description : String
  keys : Option (List String)
  kat : Option (List String)
deriving DecidableEq, Repr

/-- Embeds `struct Action` of src/main.rs. -/
structure Action where
  desc : String
  keys : List Nat
  kat : List KatanaAction
deriving DecidableEq, Repr

/-- Embeds `impl TryFrom<&MidiKeyMapping> for Action` of src/main.rs.  The
external `KeyCode::from_str` of the evdev crate is abstracted as the
parameter `kp`, the partial map from key names to key codes; a missing
optional list defaults to the empty list. -/
def Action.tryFrom (kp : String → Option Nat) (m : MidiKeyMapping) :
    Except String Action := do
  let keys ← match m.keys with
    | some ks => ks.mapM (fun k =>
        match kp k with
        | some kc => Except.ok kc
        | none => Except.error "Invalid KeyCode")
    | none => pure []
  let kat ← match m.kat with
    | some ks => ks.mapM (fun k =>
        match KatanaAction.tryFrom k with
        | .ok kc => Except.ok kc
        | .error _ => Except.error "Invalid Katana Action")
    | none => pure []
  pure (Action.mk m.description keys kat)

/-- Model of `HashMap::insert` on the table: the value of an existing key is
replaced; the table is the partial map `Event → Option Action`. -/
def insertMapping (tbl : Event → Option Action) (e : Event) (a : Action) :
    Event → Option Action :=
  fun x => if x = e then some a else tbl x

/-- One iteration of the `get_mappings` loop of src/main.rs: parse the event
string, parse the action, insert. -/
def get_mappings_step (kp : String → Option Nat)
    (tbl : Event → Option Action) (m : MidiKeyMapping) :
    Except String (Event → Option Action) := do
  let event ← Event.tryFrom m.event
  let action ← Action.tryFrom kp m
  pure (insertMapping tbl event action)

/-- Embeds `get_mappings` of src/main.rs: fold the descriptors in
configuration order into an initially empty table, failing on the first
descriptor that does not parse. -/
def get_mappings (kp : String → Option Nat) (ms : List MidiKeyMapping) :
    Except String (Event → Option Action) :=
  ms.foldlM (get_mappings_step kp) (fun _ => none)

/-- A successful loop iteration decomposes into its parses and an insert. -/
theorem get_mappings_step_inv (kp : String → Option Nat)
    (tbl tbl2 : Event → Option Action) (m : MidiKeyMapping)
    (h : get_mappings_step kp tbl m = .ok tbl2) :
    ∃ em am, Event.tryFrom m.event = .ok em ∧ Action.tryFrom kp m = .ok am
      ∧ tbl2 = insertMapping tbl em am := by
  unfold get_mappings_step at h
  cases hev : Event.tryFrom m.event with
  | error err => rw [hev] at h; cases h
  | ok em =>
    rw [hev] at h
    cases hac : Action.tryFrom kp m with
    | error err => rw [hac] at h; cases h
    | ok am =>
      rw [hac] at h
      injection h with h
      exact ⟨em, am, rfl, rfl, h.symm⟩

/-- When both parses succeed, the loop iteration is the insert. -/
theorem get_mappings_step_eq (kp : String → Option Nat)
    (tbl : Event → Option Action) (m : MidiKeyMapping) (em : Event)
    (am : Action) (hev : Event.tryFrom m.event = .ok em)
    (hac : Action.tryFrom kp m = .ok am) :
    get_mappings_step kp tbl m = .ok (insertMapping tbl em am) := by
  unfold get_mappings_step
  rw [hev, hac]
  rfl

/-- When every descriptor of the list parses, the fold succeeds from any
starting table. -/
theorem get_mappings_go_ok (kp : String → Option Nat)
    (ms : List MidiKeyMapping)
    (h : ∀ m ∈ ms, (Event.tryFrom m.event).toBool = true
        ∧ (Action.tryFrom kp m).toBool = true) :
    ∀ tbl, ∃ tbl2, ms.foldlM (get_mappings_step kp) tbl = .ok tbl2 := by
  induction ms with
  | nil => intro tbl; exact ⟨tbl, rfl⟩
  | cons m ms ih =>
    intro tbl
    obtain ⟨h1, h2⟩ := h m (List.mem_cons_self m ms)
    obtain ⟨em, hev⟩ : ∃ em, Event.tryFrom m.event = .ok em := by
      cases hev : Event.tryFrom m.event with
      | ok em => exact ⟨em, rfl⟩
      | error err => rw [hev] at h1; cases h1
    obtain ⟨am, hac⟩ : ∃ am, Action.tryFrom kp m = .ok am := by
      cases hac : Action.tryFrom kp m with
      | ok am => exact ⟨am, rfl⟩
      | error err => rw [hac] at h2; cases h2
    rw [List.foldlM_cons, get_mappings_step_eq kp tbl m em am hev hac]
    obtain ⟨tbl2, htbl2⟩ :=
      ih (fun x hx => h x (List.mem_cons_of_mem m hx)) (insertMapping tbl em am)
    exact ⟨tbl2, by rw [← htbl2]; rfl⟩

/-- A fold over descriptors none of which parses to the event `e` leaves the
table's value at `e` unchanged. -/
theorem get_mappings_go_preserves (kp : String → Option Nat) (e : Event) :
    ∀ (ms : List MidiKeyMapping) (tbl tbl2 : Event → Option Action),
      ms.foldlM (get_mappings_step kp) tbl = .ok tbl2 →
      (∀ m ∈ ms, Event.tryFrom m.event ≠ .ok e) →
      tbl2 e = tbl e := by
  intro ms
  induction ms with
  | nil => intro tbl tbl2 h _; injection h with h; rw [← h]
  | cons m ms ih =>
    intro tbl tbl2 h hne
    rw [List.foldlM_cons] at h
    cases hstep : get_mappings_step kp tbl m with
    | error err => rw [hstep] at h; cases h
    | ok tbl1 =>
      rw [hstep] at h
      obtain ⟨em, am, hev, _, htbl1⟩ := get_mappings_step_inv kp tbl tbl1 m hstep
      have hrest : ms.foldlM (get_mappings_step kp) tbl1 = .ok tbl2 := h
      have hval := ih tbl1 tbl2 hrest (fun x hx => hne x (List.mem_cons_of_mem m hx))
      rw [hval, htbl1]
      unfold insertMapping
      rw [if_neg]
      intro hcontra
      exact hne m (List.mem_cons_self m ms) (hcontra ▸ hev)

/-- C6: a descriptor sequence containing two entries whose event strings
parse to the same event builds successfully (provided every entry parses),
and the finished table maps that event to the action of the later of the two
entries — last write wins, duplicates are not an error.  `l3` is the part of
the configuration after the later entry, required not to touch the event
again so that "the later entry" is well defined. -/
theorem get_mappings_last_write (kp : String → Option Nat)
    (l1 l2 l3 : List MidiKeyMapping) (m1 m2 : MidiKeyMapping)
    (e : Event) (a2 : Action)
    (hall : ∀ m ∈ l1 ++ m1 :: (l2 ++ m2 :: l3),
        (Event.tryFrom m.event).toBool = true
        ∧ (Action.tryFrom kp m).toBool = true)
    (h1 : Event.tryFrom m1.event = .ok e)
    (h2 : Event.tryFrom m2.event = .ok e)
    (ha2 : Action.tryFrom kp m2 = .ok a2)
    (h3 : ∀ m ∈ l3, Event.tryFrom m.event ≠ .ok e) :
    ∃ tbl, get_mappings kp (l1 ++ m1 :: (l2 ++ m2 :: l3)) = .ok tbl
      ∧ tbl e = some a2 := by
  have hsplit : l1 ++ m1 :: (l2 ++ m2 :: l3)
      = (l1 ++ m1 :: l2) ++ m2 :: l3 := by simp
  rw [hsplit] at hall ⊢
  have hallp : ∀ m ∈ l1 ++ m1 :: l2,
      (Event.tryFrom m.event).toBool = true
      ∧ (Action.tryFrom kp m).toBool = true := by
    intro x hx
    exact hall x (List.mem_append_left _ hx)
  have hall3 : ∀ m ∈ l3,
      (Event.tryFrom m.event).toBool = true
      ∧ (Action.tryFrom kp m).toBool = true := by
    intro x hx
    exact hall x (List.mem_append_right _ (List.mem_cons_of_mem m2 hx))
  obtain ⟨tblp, htblp⟩ :=
    get_mappings_go_ok kp (l1 ++ m1 :: l2) hallp (fun _ => none)
  obtain ⟨tbl, htbl⟩ :=
    get_mappings_go_ok kp l3 hall3 (insertMapping tblp e a2)
  refine ⟨tbl, ?_, ?_⟩
  · unfold get_mappings
    rw [List.foldlM_append, htblp]
    show (m2 :: l3).foldlM (get_mappings_step kp) tblp = .ok tbl
    rw [List.foldlM_cons, get_mappings_step_eq kp tblp m2 e a2 h2 ha2]
    exact htbl
  · have hval := get_mappings_go_preserves kp e l3 (insertMapping tblp e a2) tbl htbl h3
    rw [hval]
    unfold insertMapping
    rw [if_pos rfl]

/-- Witness for C6: two descriptors with the same event string `"CC 1"`;
the table maps `ControlChange 1` to the second descriptor's action. -/
theorem get_mappings_last_write_witness :
    ∃ tbl, get_mappings (fun _ => none)
        [MidiKeyMapping.mk ['C', 'C', ' ', '1'] "first" none none,
         MidiKeyMapping.mk ['C', 'C', ' ', '1'] "second" none none] = .ok tbl
      ∧ tbl (.CC 1) = some (Action.mk "second" [] []) := by
  have h := get_mappings_last_write (fun _ => none) [] [] []
    (MidiKeyMapping.mk ['C', 'C', ' ', '1'] "first" none none)
    (MidiKeyMapping.mk ['C', 'C', ' ', '1'] "second" none none)
    (.CC 1) (Action.mk "second" [] [])
    (by decide) rfl rfl rfl
    (by intro m hm; cases hm)
  simpa using h

/-! ## Inbound frame decoding (model of the midly crate's `LiveEvent::parse`,
the external parser called at the top of `Handler::handle`) -/

/-- Model of midly's `MidiMessage` (channel-voice message body). -/
inductive MidiMessage where
  | NoteOff (key vel : Nat)
  | NoteOn (key vel : Nat)
  | Aftertouch (key vel : Nat)
  | Controller (controller value : Nat)
  | ProgramChange (program : Nat)
  | ChannelAftertouch (vel : Nat)
  | PitchBend (lsb msb : Nat)
deriving DecidableEq, Repr

/-- Model of midly's `LiveEvent`: a channel-voice message with its channel,
or a non-channel-voice (system) event, which the dispatcher ignores. -/
inductive LiveEvent where
  | Midi (channel : Nat) (message : MidiMessage)
  | SysCommon (bytes : List Nat)
  | SysRealtime (status : Nat)
deriving DecidableEq, Repr

/-- Model of the midly crate's `LiveEvent::parse`, the raw-frame decoder used
by `Handler::handle` (src/main.rs).  An empty frame or a leading byte without
the status bit is a parse error.  A status byte in `0x80..=0xEF` heads a
channel-voice message whose data bytes follow in the count fixed by the
message kind and are masked to 7 bits (midly's default, non-strict reading);
a frame with the wrong number of data bytes is an error.  System statuses
(`0xF0..`) are modelled coarsely: single-byte realtime statuses parse to
`SysRealtime`, the fixed-length system-common messages to `SysCommon`, and
everything else to a parse error; the dispatcher treats every non-`Midi`
event alike ("ignoring non Midi event"), so only the channel-voice cases
carry weight. -/
def LiveEvent.parse (raw : List Nat) : Except String LiveEvent :=
  match raw with
  | [] => .error "unexpected end of frame"
  | status :: rest =>
    if status < 0x80 then .error "expected status byte"
    else if status < 0xF0 then
      if status / 16 = 0x8 then
        match rest with
        | [d1, d2] => .ok (.Midi (status % 16) (.NoteOff (d1 % 128) (d2 % 128)))
        | _ => .error "wrong number of data bytes"
      else if status / 16 = 0x9 then
        match rest with
        | [d1, d2] => .ok (.Midi (status % 16) (.NoteOn (d1 % 128) (d2 % 128)))
        | _ => .error "wrong number of data bytes"
      else if status / 16 = 0xA then
        match rest with
        | [d1, d2] => .ok (.Midi (status % 16) (.Aftertouch (d1 % 128) (d2 % 128)))
        | _ => .error "wrong number of data bytes"
      else if status / 16 = 0xB then
        match rest with
        | [d1, d2] => .ok (.Midi (status % 16) (.Controller (d1 % 128) (d2 % 128)))
        | _ => .error "wrong number of data bytes"
      else if status / 16 = 0xC then
        match rest with
        | [d1] => .ok (.Midi (status % 16) (.ProgramChange (d1 % 128)))
        | _ => .error "wrong number of data bytes"
      else if status / 16 = 0xD then
        match rest with
        | [d1] => .ok (.Midi (status % 16) (.ChannelAftertouch (d1 % 128)))
        | _ => .error "wrong number of data bytes"
      else
        match rest with
        | [d1, d2] => .ok (.Midi (status % 16) (.PitchBend (d1 % 128) (d2 % 128)))
        | _ => .error "wrong number of data bytes"
    else if status = 0xF1 ∨ status = 0xF3 then
      match rest with
      | [d1] => .ok (.SysCommon [status, d1 % 128])
      | _ => .error "wrong number of data bytes"
    else if status = 0xF2 then
      match rest with
      | [d1, d2] => .ok (.SysCommon [status, d1 % 128, d2 % 128])
      | _ => .error "wrong number of data bytes"
    else if status = 0xF6 then
      match rest with
      | [] => .ok (.SysCommon [status])
      | _ => .error "wrong number of data bytes"
    else if 0xF8 ≤ status ∧ status ≤ 0xFF then
      match rest with
      | [] => .ok (.SysRealtime status)
      | _ => .error "wrong number of data bytes"
    else .error "invalid status byte"

/-! ## The dispatcher (src/main.rs `Handler::handle`) -/

/-- Dispatch-relevant handler state of src/main.rs: whether the optional
`KatanaControl` is configured, and the mapping table.  The source never
replaces either field during dispatch, so the state is read-only here. -/
structure Handler where
  hasKat : Bool
  mappings : Event → Option Action

/-- Transport behaviour during one `handle` invocation: whether the virtual
keyboard's single `emit` call succeeds, and whether the i-th Katana
`conn.send` of the invocation succeeds. -/
structure SinkBehavior where
  kbOk : Bool
  katOk : Nat → Bool

/-- One observable side effect of a `handle` invocation, in trace order. -/
inductive Effect where
  | KbEmit (batch : List InputEvent)
  | KatanaSend (msg : SysExMsg)
deriving DecidableEq, Repr

/-- Embeds the decode `match` of `Handler::handle` (src/main.rs): a
Program-Change keeps its program number, a Control-Change keeps only the
controller number — the value byte is matched with `value: _` and dropped —
and every other channel-voice subtype maps to `none` ("Unsupported
message"). -/
def eventOf : MidiMessage → Option Event
  | .ProgramChange p => some (.PC p)
  | .Controller c _ => some (.CC c)
  | _ => none

/-- Errors surfaced by `handle`: a frame-parse failure, or a failed sink
operation (keyboard emit or Katana send). -/
inductive DispatchError where
  | parseError
  | sinkError
deriving DecidableEq, Repr

/-- Embeds `apply_katana_action` of src/main.rs composed with the message
construction of `KatanaControl::change_preset`: the sysex message each
Katana action sends. -/
def katana_action_msg : KatanaAction → SysExMsg
  | .PresetPanel => change_preset_msg .Panel
  | .PresetA1 => change_preset_msg .A1
  | .PresetA2 => change_preset_msg .A2
  | .PresetA3 => change_preset_msg .A3
  | .PresetA4 => change_preset_msg .A4
  | .PresetB1 => change_preset_msg .B1
  | .PresetB2 => change_preset_msg .B2
  | .PresetB3 => change_preset_msg .B3
  | .PresetB4 => change_preset_msg .B4

/-- Embeds the Katana leg of `Handler::handle` (src/main.rs): one
`apply_katana_action` per listed action, in order, each behind `?`, so the
first failing `conn.send` aborts the loop and propagates the error.  Every
attempted send, the failing one included, is a trace entry. -/
def run_katana_actions (ok : Nat → Bool) :
    List KatanaAction → Except DispatchError Unit × List Effect
  | [] => (.ok (), [])
  | a :: rest =>
    if ok 0 then
      ((run_katana_actions (fun i => ok (i + 1)) rest).1,
       .KatanaSend (katana_action_msg a)
         :: (run_katana_actions (fun i => ok (i + 1)) rest).2)
    else (.error .sinkError, [.KatanaSend (katana_action_msg a)])

/-- Embeds `Handler::handle` of src/main.rs as a function from handler state,
transport behaviour and raw frame to the returned `Result` and the ordered
trace of attempted side effects: parse the frame (a failure is returned as
the error, a non-channel-voice event is logged and ignored), decode to an
`Event` (unsupported subtypes are ignored), look the event up (a miss is
ignored), then run the matched action: the single keyboard `emit` first —
its failure aborts the invocation — and then, when a Katana channel is
configured, the Katana sends. -/
def handle (h : Handler) (sb : SinkBehavior) (raw : List Nat) :
    Except DispatchError Unit × List Effect :=
  match LiveEvent.parse raw with
  | .error _ => (.error .parseError, [])
  | .ok (.SysCommon _) => (.ok (), [])
  | .ok (.SysRealtime _) => (.ok (), [])
  | .ok (.Midi _ msg) =>
    match eventOf msg with
    | none => (.ok (), [])
    | some evt =>
      match h.mappings evt with
      | none => (.ok (), [])
      | some act =>
        if sb.kbOk then
          if h.hasKat then
            ((run_katana_actions sb.katOk act.kat).1,
             .KbEmit (keyboard_events act.keys)
               :: (run_katana_actions sb.katOk act.kat).2)
          else (.ok (), [.KbEmit (keyboard_events act.keys)])
        else (.error .sinkError, [.KbEmit (keyboard_events act.keys)])

/-- The Katana leg succeeds exactly when every send it is asked to perform
succeeds; otherwise it surfaces the sink error. -/
theorem run_katana_actions_result :
    ∀ (acts : List KatanaAction) (ok : Nat → Bool),
      (run_katana_actions ok acts).1 = .ok ()
        ↔ ∀ i, i < acts.length → ok i = true := by
  intro acts
  induction acts with
  | nil =>
    intro ok
    constructor
    · intro _ i hi
      simp at hi
    · intro _
      rfl
  | cons a rest ih =>
    intro ok
    unfold run_katana_actions
    by_cases h0 : ok 0
    · rw [if_pos h0]
      constructor
      · intro hr i hi
        cases i with
        | zero => exact h0
        | succ j =>
          exact (ih (fun k => ok (k + 1))).mp hr j (by simp at hi; omega)
      · intro hall
        exact (ih (fun k => ok (k + 1))).mpr
          (fun j hj => hall (j + 1) (by simp; omega))
    · rw [if_neg h0]
      constructor
      · intro hr
        exact Except.noConfusion hr
      · intro hall
        exact absurd (hall 0 (by simp)) h0

/-- C5 counterexample: the frame `[0xC0, 0x05]` (Program Change 5) parses
successfully, yet with a mapped action and a failing keyboard sink `handle`
returns an error — so `handle` does not return an error *exactly* when the
frame fails to parse. -/
theorem handle_error_without_parse_failure :
    (LiveEvent.parse [0xC0, 0x05]).toBool = true
    ∧ (handle
        (Handler.mk false
          (fun e => if e = .PC 5 then some (Action.mk "x" [30] []) else none))
        (SinkBehavior.mk false (fun _ => true)) [0xC0, 0x05]).1
      = .error .sinkError := by
  exact ⟨rfl, rfl⟩

/-- C5 (amended): `handle` returns an error exactly when the frame fails to
parse or a sink operation of the matched action fails: a parse failure
yields an error with no side effects; a frame parsing to a non-MIDI (system)
event, to an unsupported channel-voice subtype, or to an event with no
mapping-table entry yields success with no side effects; and `handle`
errors if and only if the frame failed to parse, or a mapped action was
reached and a sink operation of that action failed — the keyboard emit, or,
with a Katana channel configured, one of the action's device sends. -/
theorem handle_outcomes (h : Handler) (sb : SinkBehavior) (raw : List Nat) :
    ((∃ err, LiveEvent.parse raw = .error err) →
        handle h sb raw = (.error .parseError, []))
    ∧ (∀ b, LiveEvent.parse raw = .ok (.SysCommon b) →
        handle h sb raw = (.ok (), []))
    ∧ (∀ st, LiveEvent.parse raw = .ok (.SysRealtime st) →
        handle h sb raw = (.ok (), []))
    ∧ (∀ ch m2, LiveEvent.parse raw = .ok (.Midi ch m2) → eventOf m2 = none →
        handle h sb raw = (.ok (), []))
    ∧ (∀ ch m2 e2, LiveEvent.parse raw = .ok (.Midi ch m2) →
        eventOf m2 = some e2 → h.mappings e2 = none →
        handle h sb raw = (.ok (), []))
    ∧ ((handle h sb raw).1 ≠ .ok () ↔
        (∃ err, LiveEvent.parse raw = .error err)
        ∨ ∃ ch m2 e2 a, LiveEvent.parse raw = .ok (.Midi ch m2)
            ∧ eventOf m2 = some e2 ∧ h.mappings e2 = some a
            ∧ (sb.kbOk = false
               ∨ (h.hasKat = true
                   ∧ ∃ i, i < a.kat.length ∧ sb.katOk i = false))) := by
  refine ⟨?_, ?_, ?_, ?_, ?_, ?_⟩
  · rintro ⟨err, hp⟩
    simp [handle, hp]
  · intro b hp
    simp [handle, hp]
  · intro st hp
    simp [handle, hp]
  · intro ch m2 hp hE
    simp [handle, hp, hE]
  · intro ch m2 e2 hp hE hM
    simp [handle, hp, hE, hM]
  · cases hp : LiveEvent.parse raw with
    | error err =>
      have hh : handle h sb raw = (.error .parseError, []) := by simp [handle, hp]
      constructor
      · intro _
        exact Or.inl ⟨err, rfl⟩
      · intro _
        rw [hh]
        exact fun hc => Except.noConfusion hc
    | ok ev =>
      cases ev with
      | SysCommon b =>
        have hh : handle h sb raw = (.ok (), []) := by simp [handle, hp]
        constructor
        · intro hc
          rw [hh] at hc
          exact absurd rfl hc
        · rintro (⟨err, herr⟩ | ⟨ch2, m22, e2x, ax, hmid, _, _, _⟩)
          · cases herr
          · simp at hmid
      | SysRealtime st =>
        have hh : handle h sb raw = (.ok (), []) := by simp [handle, hp]
        constructor
        · intro hc
          rw [hh] at hc
          exact absurd rfl hc
        · rintro (⟨err, herr⟩ | ⟨ch2, m22, e2x, ax, hmid, _, _, _⟩)
          · cases herr
          · simp at hmid
      | Midi ch m2 =>
        cases hE : eventOf m2 with
        | none =>
          have hh : handle h sb raw = (.ok (), []) := by simp [handle, hp, hE]
          constructor
          · intro hc
            rw [hh] at hc
            exact absurd rfl hc
          · rintro (⟨err, herr⟩ | ⟨ch2, m22, e2x, ax, hmid, hE2, _, _⟩)
            · cases herr
            · simp only [Except.ok.injEq, LiveEvent.Midi.injEq] at hmid
              obtain ⟨hch, hmsg⟩ := hmid
              subst hch
              subst hmsg
              rw [hE] at hE2
              cases hE2
        | some e2 =>
          cases hM : h.mappings e2 with
          | none =>
            have hh : handle h sb raw = (.ok (), []) := by simp [handle, hp, hE, hM]
            constructor
            · intro hc
              rw [hh] at hc
              exact absurd rfl hc
            · rintro (⟨err, herr⟩ | ⟨ch2, m22, e2x, ax, hmid, hE2, hM2, _⟩)
              · cases herr
              · simp only [Except.ok.injEq, LiveEvent.Midi.injEq] at hmid
                obtain ⟨hch, hmsg⟩ := hmid
                subst hch
                subst hmsg
                rw [hE] at hE2
                injection hE2 with hE2
                subst hE2
                rw [hM] at hM2
                cases hM2
          | some a =>
            have hbase : handle h sb raw
                = (if sb.kbOk then
                    if h.hasKat then
                      ((run_katana_actions sb.katOk a.kat).1,
                       .KbEmit (keyboard_events a.keys)
                         :: (run_katana_actions sb.katOk a.kat).2)
                    else (.ok (), [.KbEmit (keyboard_events a.keys)])
                  else (.error .sinkError, [.KbEmit (keyboard_events a.keys)])) := by
              simp [handle, hp, hE, hM]
            by_cases hkb : sb.kbOk
            · by_cases hk : h.hasKat
              · have hres : (handle h sb raw).1
                    = (run_katana_actions sb.katOk a.kat).1 := by
                  rw [hbase, if_pos hkb, if_pos hk]
                constructor
                · intro hne
                  refine Or.inr ⟨ch, m2, e2, a, rfl, hE, hM, Or.inr ⟨hk, ?_⟩⟩
                  by_contra hnone
                  push_neg at hnone
                  apply hne
                  rw [hres]
                  refine (run_katana_actions_result a.kat sb.katOk).mpr ?_
                  intro i hi
                  cases hb : sb.katOk i
                  · exact absurd hb (hnone i hi)
                  · rfl
                · rintro (⟨err, herr⟩ | ⟨ch2, m22, e2x, ax, hmid, hE2, hM2, hsink⟩)
                  · cases herr
                  · simp only [Except.ok.injEq, LiveEvent.Midi.injEq] at hmid
                    obtain ⟨hch, hmsg⟩ := hmid
                    subst hch
                    subst hmsg
                    rw [hE] at hE2
                    injection hE2 with hE2
                    subst hE2
                    rw [hM] at hM2
                    injection hM2 with hM2
                    subst hM2
                    rcases hsink with hkbf | ⟨_, i, hi, hif⟩
                    · rw [hkbf] at hkb
                      exact absurd hkb (by decide)
                    · rw [hres]
                      intro hok
                      have hall := (run_katana_actions_result a.kat sb.katOk).mp hok
                      have htrue := hall i hi
                      rw [htrue] at hif
                      exact absurd hif (by decide)
              · have hres : (handle h sb raw).1 = .ok () := by
                  rw [hbase, if_pos hkb, if_neg hk]
                constructor
                · intro hne
                  exact absurd hres hne
                · rintro (⟨err, herr⟩ | ⟨ch2, m22, e2x, ax, hmid, hE2, hM2, hsink⟩)
                  · cases herr
                  · rcases hsink with hkbf | ⟨hkt, _⟩
                    · rw [hkbf] at hkb
                      exact absurd hkb (by decide)
                    · exact absurd hkt hk
            · have hres : (handle h sb raw).1 = .error .sinkError := by
                rw [hbase, if_neg hkb]
              constructor
              · intro _
                refine Or.inr ⟨ch, m2, e2, a, rfl, hE, hM, Or.inl ?_⟩
                cases hb : sb.kbOk
                · rfl
                · exact absurd hb hkb
              · intro _
                rw [hres]
                exact fun hc => Except.noConfusion hc

/-- Parsing a well-formed three-byte Control-Change frame. -/
theorem parse_cc_frame (ch c v : Nat) (hch : ch < 16) (hc : c < 128)
    (hv : v < 128) :
    LiveEvent.parse [0xB0 + ch, c, v] = .ok (.Midi ch (.Controller c v)) := by
  have h4 : (0xB0 + ch) % 16 = ch := by omega
  simp only [LiveEvent.parse]
  rw [if_neg (by omega), if_pos (by omega : 0xB0 + ch < 0xF0),
    if_neg (by omega), if_neg (by omega), if_neg (by omega),
    if_pos (by omega : (0xB0 + ch) / 16 = 0xB), h4]
  simp [Nat.mod_eq_of_lt hc, Nat.mod_eq_of_lt hv]

/-- C7: two raw Control-Change frames with the same controller byte and any
two value bytes decode to channel-voice Control-Change messages that map to
the identical event `ControlChange controller` — the value byte is dropped —
and `handle` gives identical results and side effects on the two frames,
whatever the handler state and the transport behaviour. -/
theorem handle_cc_value_irrelevant (h : Handler) (sb : SinkBehavior)
    (ch c v1 v2 : Nat) (hch : ch < 16) (hc : c < 128) (hv1 : v1 < 128)
    (hv2 : v2 < 128) :
    LiveEvent.parse [0xB0 + ch, c, v1] = .ok (.Midi ch (.Controller c v1))
    ∧ LiveEvent.parse [0xB0 + ch, c, v2] = .ok (.Midi ch (.Controller c v2))
    ∧ eventOf (.Controller c v1) = some (.CC c)
    ∧ eventOf (.Controller c v2) = some (.CC c)
    ∧ handle h sb [0xB0 + ch, c, v1] = handle h sb [0xB0 + ch, c, v2] := by
  refine ⟨parse_cc_frame ch c v1 hch hc hv1, parse_cc_frame ch c v2 hch hc hv2,
    rfl, rfl, ?_⟩
  simp [handle, parse_cc_frame ch c v1 hch hc hv1,
    parse_cc_frame ch c v2 hch hc hv2, eventOf]

/-- Witness for C7: controller 64 with values 1 and 127 on channel 0. -/
theorem handle_cc_value_irrelevant_witness :
    LiveEvent.parse [0xB0 + 0, 64, 1] = .ok (.Midi 0 (.Controller 64 1))
    ∧ LiveEvent.parse [0xB0 + 0, 64, 127] = .ok (.Midi 0 (.Controller 64 127))
    ∧ eventOf (.Controller 64 1) = some (.CC 64)
    ∧ eventOf (.Controller 64 127) = some (.CC 64)
    ∧ handle (Handler.mk false (fun _ => none))
        (SinkBehavior.mk true (fun _ => true)) [0xB0 + 0, 64, 1]
      = handle (Handler.mk false (fun _ => none))
        (SinkBehavior.mk true (fun _ => true)) [0xB0 + 0, 64, 127] :=
  handle_cc_value_irrelevant (Handler.mk false (fun _ => none))
    (SinkBehavior.mk true (fun _ => true)) 0 64 1 127
    (by decide) (by decide) (by decide) (by decide)

/-- Every effect of the Katana leg is a Katana send. -/
theorem run_katana_actions_effects :
    ∀ (acts : List KatanaAction) (ok : Nat → Bool),
      ∀ eff ∈ (run_katana_actions ok acts).2, ∃ ms, eff = .KatanaSend ms := by
  intro acts
  induction acts with
  | nil => intro ok eff heff; cases heff
  | cons a rest ih =>
    intro ok eff heff
    unfold run_katana_actions at heff
    by_cases h0 : ok 0
    · rw [if_pos h0] at heff
      rcases List.mem_cons.mp heff with heq | heq
      · exact ⟨katana_action_msg a, heq⟩
      · exact ih (fun i => ok (i + 1)) eff heq
    · rw [if_neg h0] at heff
      rcases List.mem_cons.mp heff with heq | heq
      · exact ⟨katana_action_msg a, heq⟩
      · cases heq

/-- When every send succeeds, the Katana leg sends all listed commands in
order and succeeds. -/
theorem run_katana_actions_all_ok :
    ∀ (acts : List KatanaAction) (ok : Nat → Bool),
      (∀ i, i < acts.length → ok i = true) →
      run_katana_actions ok acts
        = (.ok (), acts.map (fun x => .KatanaSend (katana_action_msg x))) := by
  intro acts
  induction acts with
  | nil => intro ok _; rfl
  | cons a rest ih =>
    intro ok hok
    unfold run_katana_actions
    rw [if_pos (hok 0 (by simp))]
    rw [ih (fun i => ok (i + 1)) (fun i hi => hok (i + 1) (by simpa using hi))]
    rfl

/-- When send number `i` is the first to fail, the Katana leg attempts
exactly the first `i + 1` commands, in order, and surfaces the error. -/
theorem run_katana_actions_first_fail :
    ∀ (acts : List KatanaAction) (ok : Nat → Bool) (i : Nat),
      i < acts.length → ok i = false → (∀ j, j < i → ok j = true) →
      run_katana_actions ok acts
        = (.error .sinkError,
           (acts.take (i + 1)).map (fun x => .KatanaSend (katana_action_msg x))) := by
  intro acts
  induction acts with
  | nil => intro ok i hi _ _; cases hi
  | cons a rest ih =>
    intro ok i hi hfail hbefore
    unfold run_katana_actions
    cases i with
    | zero =>
      rw [if_neg (by rw [hfail]; exact Bool.false_ne_true)]
      rfl
    | succ i2 =>
      rw [if_pos (hbefore 0 (Nat.succ_pos i2))]
      rw [ih (fun k => ok (k + 1)) i2 (by simpa using hi) hfail
        (fun j hj => hbefore (j + 1) (by omega))]
      rfl

/-- C9: in every `handle` invocation that reaches a mapped action, the legs
run in the fixed order: the single key-emission batch is the first side
effect and everything after it is a device-command send.  A keyboard-emit
failure surfaces the error and no device command is sent; when a Katana
channel is configured, the first failing device send ends the trace — the
commands after it are not sent — and the error is surfaced; when every sink
operation succeeds the invocation succeeds with the full trace.  The handler
state (table, channel flag) is read-only throughout, so later invocations
are unaffected. -/
theorem handle_leg_order (h : Handler) (sb : SinkBehavior) (raw : List Nat)
    (ch : Nat) (m2 : MidiMessage) (e2 : Event) (a : Action)
    (hp : LiveEvent.parse raw = .ok (.Midi ch m2))
    (hE : eventOf m2 = some e2)
    (hM : h.mappings e2 = some a) :
    (∃ kat, (handle h sb raw).2 = .KbEmit (keyboard_events a.keys) :: kat
        ∧ ∀ eff ∈ kat, ∃ ms, eff = .KatanaSend ms)
    ∧ (sb.kbOk = false →
        handle h sb raw
          = (.error .sinkError, [.KbEmit (keyboard_events a.keys)]))
    ∧ (sb.kbOk = true → h.hasKat = false →
        handle h sb raw = (.ok (), [.KbEmit (keyboard_events a.keys)]))
    ∧ (sb.kbOk = true → h.hasKat = true →
        (∀ i, i < a.kat.length → sb.katOk i = true) →
        handle h sb raw
          = (.ok (), .KbEmit (keyboard_events a.keys)
              :: a.kat.map (fun x => .KatanaSend (katana_action_msg x))))
    ∧ (sb.kbOk = true → h.hasKat = true →
        ∀ i, i < a.kat.length → sb.katOk i = false →
        (∀ j, j < i → sb.katOk j = true) →
        handle h sb raw
          = (.error .sinkError, .KbEmit (keyboard_events a.keys)
              :: (a.kat.take (i + 1)).map
                  (fun x => .KatanaSend (katana_action_msg x)))) := by
  have hbase : handle h sb raw
      = (if sb.kbOk then
          if h.hasKat then
            ((run_katana_actions sb.katOk a.kat).1,
             .KbEmit (keyboard_events a.keys)
               :: (run_katana_actions sb.katOk a.kat).2)
          else (.ok (), [.KbEmit (keyboard_events a.keys)])
        else (.error .sinkError, [.KbEmit (keyboard_events a.keys)])) := by
    simp [handle, hp, hE, hM]
  refine ⟨?_, ?_, ?_, ?_, ?_⟩
  · rw [hbase]
    by_cases hkb : sb.kbOk
    · rw [if_pos hkb]
      by_cases hk : h.hasKat
      · rw [if_pos hk]
        exact ⟨(run_katana_actions sb.katOk a.kat).2, rfl,
          run_katana_actions_effects a.kat sb.katOk⟩
      · rw [if_neg hk]
        exact ⟨[], rfl, by intro eff heff; cases heff⟩
    · rw [if_neg hkb]
      exact ⟨[], rfl, by intro eff heff; cases heff⟩
  · intro hkb
    rw [hbase, hkb]
    rfl
  · intro hkb hk
    rw [hbase, hkb, hk]
    rfl
  · intro hkb hk hall
    rw [hbase, hkb, hk, run_katana_actions_all_ok a.kat sb.katOk hall]
    rfl
  · intro hkb hk i hi hfail hbefore
    rw [hbase, hkb, hk,
      run_katana_actions_first_fail a.kat sb.katOk i hi hfail hbefore]
    rfl

/-- Witness for C9: a mapped Program-Change 3 with one key and one Katana
action, all sinks succeeding: one keyboard batch, then the device send. -/
theorem handle_leg_order_witness :
    handle
      (Handler.mk true
        (fun e => if e = .PC 3 then some (Action.mk "d" [5] [.PresetA1]) else none))
      (SinkBehavior.mk true (fun _ => true)) [0xC0, 0x03]
      = (.ok (), .KbEmit (keyboard_events [5])
          :: ([KatanaAction.PresetA1] : List KatanaAction).map
              (fun x => .KatanaSend (katana_action_msg x))) :=
  (handle_leg_order
    (Handler.mk true
      (fun e => if e = .PC 3 then some (Action.mk "d" [5] [.PresetA1]) else none))
    (SinkBehavior.mk true (fun _ => true)) [0xC0, 0x03]
    0 (.ProgramChange 3) (.PC 3) (Action.mk "d" [5] [.PresetA1])
    rfl rfl rfl).2.2.2.1 rfl rfl (fun _ _ => rfl)

/-! ## The KatanaControl edit-mode lifecycle (src/katana.rs) -/

/-- Message sent by `KatanaControl::enter_edit_mode` (src/katana.rs). -/
def enter_edit_msg : SysExMsg := create_sysex_message EDIT_MODE_ON

/-- Message sent by `KatanaControl::exit_edit_mode` (src/katana.rs). -/
def exit_edit_msg : SysExMsg := create_sysex_message EDIT_MODE_OFF

/-- One attempted transport send of the Katana channel: the message, and
whether the underlying `conn.send` succeeded. -/
structure SendAttempt where
  msg : SysExMsg
  sendOk : Bool
deriving DecidableEq, Repr

/-- Embeds `impl Drop for KatanaControl` (src/katana.rs): exactly one attempt
to send the edit-mode-exit message; its failure is logged and swallowed, so
drop contributes a trace entry but never an error. -/
def katana_drop (ok : Bool) : List SendAttempt :=
  [SendAttempt.mk exit_edit_msg ok]

/-- The `change_preset` send attempts for the listed presets, in call order,
numbering the sends with the oracle `ok` from 0. -/
def preset_attempts (ok : Nat → Bool) : List Preset → List SendAttempt
  | [] => []
  | p :: ps =>
    SendAttempt.mk (change_preset_msg p) (ok 0)
      :: preset_attempts (fun i => ok (i + 1)) ps

/-- Embeds one full lifetime of a `KatanaControl` (src/katana.rs).
`KatanaControl::new` sends the edit-mode-entry command (send number 0); when
that send fails, `?` aborts construction with the transport error and the
partially constructed value is dropped on the way out of `new`, which
attempts the edit-mode exit once.  When construction succeeds, the caller
performs the given `change_preset` calls (send number `i + 1` for call `i`);
each result is returned to the caller, and a failure leaves the channel
usable.  At teardown, `drop` attempts the edit-mode exit exactly once and
swallows any failure.  The oracle `ok` decides each consecutive send's
outcome; the result is (construction result, per-call `change_preset`
results, ordered trace of attempted sends). -/
def katana_lifetime (ok : Nat → Bool) (presets : List Preset) :
    Except DispatchError Unit × List Bool × List SendAttempt :=
  if ok 0 then
    (.ok (),
     (List.range presets.length).map (fun i => ok (i + 1)),
     SendAttempt.mk enter_edit_msg true
       :: (preset_attempts (fun i => ok (i + 1)) presets
            ++ katana_drop (ok (presets.length + 1))))
  else
    (.error .sinkError, [],
     [SendAttempt.mk enter_edit_msg false, SendAttempt.mk exit_edit_msg (ok 1)])

/-- No preset-select message coincides with the edit-mode-entry message. -/
theorem change_preset_msg_ne_enter (p : Preset) :
    (change_preset_msg p == enter_edit_msg) = false := by
  cases p <;> decide

/-- No preset-select message coincides with the edit-mode-exit message. -/
theorem change_preset_msg_ne_exit (p : Preset) :
    (change_preset_msg p == exit_edit_msg) = false := by
  cases p <;> decide

/-- The `change_preset` leg never contains an edit-mode-entry attempt. -/
theorem preset_attempts_count_enter :
    ∀ (presets : List Preset) (ok : Nat → Bool),
      (preset_attempts ok presets).countP (fun s => s.msg == enter_edit_msg) = 0 := by
  intro presets
  induction presets with
  | nil => intro ok; rfl
  | cons p ps ih =>
    intro ok
    unfold preset_attempts
    rw [List.countP_cons]
    simp [ih (fun i => ok (i + 1)), change_preset_msg_ne_enter p]

/-- The `change_preset` leg never contains an edit-mode-exit attempt. -/
theorem preset_attempts_count_exit :
    ∀ (presets : List Preset) (ok : Nat → Bool),
      (preset_attempts ok presets).countP (fun s => s.msg == exit_edit_msg) = 0 := by
  intro presets
  induction presets with
  | nil => intro ok; rfl
  | cons p ps ih =>
    intro ok
    unfold preset_attempts
    rw [List.countP_cons]
    simp [ih (fun i => ok (i + 1)), change_preset_msg_ne_exit p]

/-- C8: in every lifetime of the device control channel — whatever
`change_preset` calls happen and whatever sends fail — the edit-mode-entry
command is attempted exactly once and the edit-mode-exit command is
attempted exactly once; a failing entry send aborts construction with the
transport error (no preset command is ever sent in that lifetime, only the
exit attempt of the drop); a successful entry send means construction
succeeds; and the outcome of the exit send is swallowed: it influences
neither the construction result nor any `change_preset` result. -/
theorem katana_lifetime_edit_mode_once (ok : Nat → Bool) (presets : List Preset) :
    (katana_lifetime ok presets).2.2.countP (fun s => s.msg == enter_edit_msg) = 1
    ∧ (katana_lifetime ok presets).2.2.countP (fun s => s.msg == exit_edit_msg) = 1
    ∧ (ok 0 = false → (katana_lifetime ok presets).1 = .error .sinkError
        ∧ (katana_lifetime ok presets).2.2
            = [SendAttempt.mk enter_edit_msg false,
               SendAttempt.mk exit_edit_msg (ok 1)])
    ∧ (ok 0 = true → (katana_lifetime ok presets).1 = .ok ())
    ∧ (∀ ok2 : Nat → Bool, (∀ i, i ≤ presets.length → ok2 i = ok i) →
        (katana_lifetime ok2 presets).1 = (katana_lifetime ok presets).1
        ∧ (katana_lifetime ok2 presets).2.1 = (katana_lifetime ok presets).2.1) := by
  refine ⟨?_, ?_, ?_, ?_, ?_⟩
  · unfold katana_lifetime
    by_cases h0 : ok 0
    · rw [if_pos h0]
      simp [List.countP_cons, List.countP_append, katana_drop,
        preset_attempts_count_enter presets]
      decide
    · rw [if_neg h0]
      simp [List.countP_cons]
      decide
  · unfold katana_lifetime
    by_cases h0 : ok 0
    · rw [if_pos h0]
      simp [List.countP_cons, List.countP_append, katana_drop,
        preset_attempts_count_exit presets]
      decide
    · rw [if_neg h0]
      simp [List.countP_cons]
      decide
  · intro h0
    unfold katana_lifetime
    rw [if_neg (by rw [h0]; exact Bool.false_ne_true)]
    exact ⟨rfl, rfl⟩
  · intro h0
    unfold katana_lifetime
    rw [if_pos h0]
  · intro ok2 hagree
    have h0 : ok2 0 = ok 0 := hagree 0 (Nat.zero_le _)
    unfold katana_lifetime
    by_cases hv : ok 0
    · rw [if_pos hv, if_pos (h0.trans hv)]
      refine ⟨rfl, ?_⟩
      apply List.map_congr_left
      intro i hi
      exact hagree (i + 1) (by simpa using List.mem_range.mp hi)
    · rw [if_neg hv, if_neg (fun hc => hv (h0 ▸ hc))]
      exact ⟨rfl, rfl⟩

/-- Witness for C8 at a concrete lifetime: the entry send fails, one
`change_preset` call was requested; the trace still holds exactly one entry
attempt and one exit attempt, and construction fails. -/
theorem katana_lifetime_edit_mode_once_witness :
    ((katana_lifetime (fun _ => false) [Preset.A1]).2.2.countP
        (fun s => s.msg == enter_edit_msg) = 1)
    ∧ ((katana_lifetime (fun _ => false) [Preset.A1]).2.2.countP
        (fun s => s.msg == exit_edit_msg) = 1)
    ∧ ((fun (_ : Nat) => false) 0 = false →
        (katana_lifetime (fun _ => false) [Preset.A1]).1 = .error .sinkError
        ∧ (katana_lifetime (fun _ => false) [Preset.A1]).2.2
            = [SendAttempt.mk enter_edit_msg false,
               SendAttempt.mk exit_edit_msg ((fun (_ : Nat) => false) 1)])
    ∧ ((fun (_ : Nat) => false) 0 = true →
        (katana_lifetime (fun _ => false) [Preset.A1]).1 = .ok ())
    ∧ (∀ ok2 : Nat → Bool, (∀ i, i ≤ ([Preset.A1] : List Preset).length → ok2 i = (fun (_ : Nat) => false) i) →
        (katana_lifetime ok2 [Preset.A1]).1
            = (katana_lifetime (fun _ => false) [Preset.A1]).1
        ∧ (katana_lifetime ok2 [Preset.A1]).2.1
            = (katana_lifetime (fun _ => false) [Preset.A1]).2.1) :=
  katana_lifetime_edit_mode_once (fun _ => false) [Preset.A1]

end Midi2Key
